import Mathlib

/-!
Verification of the CSV anonymizer core (`app.py`) against its specification.

The development shallowly embeds the functions of `app.py`:

* `anonymize_value` — blank pass-through, otherwise a truncated HMAC-SHA256
  hex digest (SHA-256 and HMAC are embedded in full over `Nat` byte lists);
* `detect_encoding` — the chardet-based encoding guess, with the external
  chardet detector abstracted as a function parameter;
* `detect_delimiter` / the quote-aware sniffer (Python's `csv.Sniffer` is
  external library code, modelled from the spec's description);
* the pandas CSV re-read (modelled from the spec's description of parsing),
  the `/upload` validation pipeline with its file-storage effect, and the
  `/anonymize` validation pipeline with its registry effect.

Machine words are `Nat` with explicit reduction modulo 2^32; cells of a
parsed table are `Option String` (with `none` playing the role of pandas NA).
-/

namespace CsvAnon

/-! ## Python string primitives

`str.strip()` and the truthiness tests that `app.py` applies to cell values.
The whitespace set is the full set of code points Python's `str.isspace()` /
`str.strip()` treats as whitespace: the ASCII controls 9–13 and 28–31, the
space, NEL (U+0085), NBSP (U+00A0), Ogham space (U+1680), the U+2000–U+200A
spaces, line/paragraph separators (U+2028/U+2029), U+202F, U+205F and the
ideographic space (U+3000). -/

/-- Characters stripped by Python's `str.strip()` (Unicode whitespace). -/
def pyIsSpace (c : Char) : Bool :=
  let n := c.toNat
  (9 ≤ n && n ≤ 13) || (28 ≤ n && n ≤ 32) ||
    n = 133 || n = 160 || n = 5760 || (8192 ≤ n && n ≤ 8202) ||
    n = 8232 || n = 8233 || n = 8239 || n = 8287 || n = 12288

/-- Python `s.strip()`: drop leading and trailing whitespace. -/
def pyStrip (s : String) : String :=
  String.mk (((s.toList.dropWhile pyIsSpace).reverse.dropWhile pyIsSpace).reverse)

/-! ## SHA-256 over byte lists

A direct embedding of SHA-256 (FIPS 180-4), as computed by Python's
`hashlib.sha256`: bytes are `Nat` values below 256, words are `Nat` values
reduced modulo 2^32 by `w32`. -/

/-- Reduce to a 32-bit word. -/
def w32 (x : Nat) : Nat := x % 4294967296

/-- Right rotation of a 32-bit word. -/
def rotr (n x : Nat) : Nat := w32 ((x >>> n) ||| (x <<< (32 - n)))

/-- SHA-256 `Ch` function. -/
def ch (x y z : Nat) : Nat := (x &&& y) ^^^ ((x ^^^ 0xffffffff) &&& z)

/-- SHA-256 `Maj` function. -/
def maj (x y z : Nat) : Nat := (x &&& y) ^^^ (x &&& z) ^^^ (y &&& z)

/-- SHA-256 Σ₀. -/
def bsig0 (x : Nat) : Nat := rotr 2 x ^^^ rotr 13 x ^^^ rotr 22 x

/-- SHA-256 Σ₁. -/
def bsig1 (x : Nat) : Nat := rotr 6 x ^^^ rotr 11 x ^^^ rotr 25 x

/-- SHA-256 σ₀. -/
def ssig0 (x : Nat) : Nat := rotr 7 x ^^^ rotr 18 x ^^^ (x >>> 3)

/-- SHA-256 σ₁. -/
def ssig1 (x : Nat) : Nat := rotr 17 x ^^^ rotr 19 x ^^^ (x >>> 10)

/-- The 64 SHA-256 round constants. -/
def sha256K : List Nat :=
  [1116352408, 1899447441, 3049323471, 3921009573, 961987163, 1508970993,
   2453635748, 2870763221, 3624381080, 310598401, 607225278, 1426881987,
   1925078388, 2162078206, 2614888103, 3248222580, 3835390401, 4022224774,
   264347078, 604807628, 770255983, 1249150122, 1555081692, 1996064986,
   2554220882, 2821834349, 2952996808, 3210313671, 3336571891, 3584528711,
   113926993, 338241895, 666307205, 773529912, 1294757372, 1396182291,
   1695183700, 1986661051, 2177026350, 2456956037, 2730485921, 2820302411,
   3259730800, 3345764771, 3516065817, 3600352804, 4094571909, 275423344,
   430227734, 506948616, 659060556, 883997877, 958139571, 1322822218,
   1537002063, 1747873779, 1955562222, 2024104815, 2227730452, 2361852424,
   2428436474, 2756734187, 3204031479, 3329325298]

/-- The SHA-256 working state: eight 32-bit words. -/
structure Hash8 where
  a : Nat
  b : Nat
  c : Nat
  d : Nat
  e : Nat
  f : Nat
  g : Nat
  hh : Nat

/-- The SHA-256 initial hash value. -/
def initH : Hash8 :=
  ⟨1779033703, 3144134277, 1013904242, 2773480762,
   1359893119, 2600822924, 528734635, 1541459225⟩

/-- Big-endian 32-bit word `i` of a 64-byte block. -/
def wordAt (block : List Nat) (i : Nat) : Nat :=
  (block.getD (4 * i) 0 <<< 24) ||| (block.getD (4 * i + 1) 0 <<< 16) |||
    (block.getD (4 * i + 2) 0 <<< 8) ||| block.getD (4 * i + 3) 0

/-- The SHA-256 message schedule `W` for one block. -/
def schedule (block : List Nat) (i : Nat) : Nat :=
  if h : i < 16 then wordAt block i
  else
    w32 (ssig1 (schedule block (i - 2)) + schedule block (i - 7) +
      ssig0 (schedule block (i - 15)) + schedule block (i - 16))
termination_by i
decreasing_by all_goals omega

/-- One SHA-256 compression round. -/
def roundStep (block : List Nat) (st : Hash8) (i : Nat) : Hash8 :=
  let t1 := w32 (st.hh + bsig1 st.e + ch st.e st.f st.g + sha256K.getD i 0 + schedule block i)
  let t2 := w32 (bsig0 st.a + maj st.a st.b st.c)
  ⟨w32 (t1 + t2), st.a, st.b, st.c, w32 (st.d + t1), st.e, st.f, st.g⟩

/-- Compress one 64-byte block into the running state. -/
def compress (st : Hash8) (block : List Nat) : Hash8 :=
  let fin := (List.range 64).foldl (roundStep block) st
  ⟨w32 (st.a + fin.a), w32 (st.b + fin.b), w32 (st.c + fin.c), w32 (st.d + fin.d),
   w32 (st.e + fin.e), w32 (st.f + fin.f), w32 (st.g + fin.g), w32 (st.hh + fin.hh)⟩

/-- The message length in bits as 8 big-endian bytes. -/
def lenBytes64 (n : Nat) : List Nat :=
  [(n >>> 56) % 256, (n >>> 48) % 256, (n >>> 40) % 256, (n >>> 32) % 256,
   (n >>> 24) % 256, (n >>> 16) % 256, (n >>> 8) % 256, n % 256]

/-- SHA-256 padding: `0x80`, zeros to 56 mod 64, then the bit length. -/
def padMsg (msg : List Nat) : List Nat :=
  msg ++ 0x80 :: List.replicate ((119 - msg.length % 64) % 64) 0 ++ lenBytes64 (8 * msg.length)

/-- Cut a byte list into 64-byte blocks. -/
def toBlocks (l : List Nat) : List (List Nat) :=
  if h : l = [] then [] else l.take 64 :: toBlocks (l.drop 64)
termination_by l.length
decreasing_by
  simp only [List.length_drop]
  have := List.length_pos.mpr h
  omega

/-- Serialize the final state as 32 big-endian digest bytes. -/
def digestBytes (st : Hash8) : List Nat :=
  [(st.a >>> 24) % 256, (st.a >>> 16) % 256, (st.a >>> 8) % 256, st.a % 256,
   (st.b >>> 24) % 256, (st.b >>> 16) % 256, (st.b >>> 8) % 256, st.b % 256,
   (st.c >>> 24) % 256, (st.c >>> 16) % 256, (st.c >>> 8) % 256, st.c % 256,
   (st.d >>> 24) % 256, (st.d >>> 16) % 256, (st.d >>> 8) % 256, st.d % 256,
   (st.e >>> 24) % 256, (st.e >>> 16) % 256, (st.e >>> 8) % 256, st.e % 256,
   (st.f >>> 24) % 256, (st.f >>> 16) % 256, (st.f >>> 8) % 256, st.f % 256,
   (st.g >>> 24) % 256, (st.g >>> 16) % 256, (st.g >>> 8) % 256, st.g % 256,
   (st.hh >>> 24) % 256, (st.hh >>> 16) % 256, (st.hh >>> 8) % 256, st.hh % 256]

/-- SHA-256 of a byte list, as Python's `hashlib.sha256(...).digest()`. -/
def sha256 (msg : List Nat) : List Nat :=
  digestBytes ((toBlocks (padMsg msg)).foldl compress initH)

/-- HMAC-SHA256 (RFC 2104), as Python's `hmac.new(key, msg, hashlib.sha256).digest()`:
keys longer than the 64-byte block are hashed first, then zero-padded. -/
def hmacSha256 (key msg : List Nat) : List Nat :=
  let k0 := if 64 < key.length then sha256 key else key
  let kp := k0 ++ List.replicate (64 - k0.length) 0
  sha256 (kp.map (fun b => b ^^^ 0x5c) ++ sha256 (kp.map (fun b => b ^^^ 0x36) ++ msg))

/-! ## Hex digests -/

/-- The lowercase hexadecimal alphabet. -/
def hexAlphabet : List Char := "0123456789abcdef".toList

/-- The hex digit for `n % 16`. -/
def hexChar (n : Nat) : Char :=
  if n % 16 < 10 then Char.ofNat (48 + n % 16) else Char.ofNat (87 + n % 16)

/-- The two hex digits of one byte. -/
def byteHex (b : Nat) : List Char := [hexChar (b / 16), hexChar b]

/-- Lowercase hex rendering of a byte list, as Python's `.hexdigest()`. -/
def hexdigest (bytes : List Nat) : List Char := (bytes.map byteHex).flatten

/-- UTF-8 encoding of a string, as Python's `str.encode()`. -/
def utf8Bytes (s : String) : List Nat := s.toUTF8.toList.map UInt8.toNat

/-! ## `anonymize_value` (app.py lines 80–88) -/

/-- The blank-value guard of `anonymize_value`:
`pd.isna(value) or value == '' or str(value).strip() == ''`. -/
def isBlankValue : Option String → Bool
  | none => true
  | some s => decide (s = "") || decide (pyStrip s = "")

/-- `anonymize_value(value, secret_key)` from app.py: blank values pass through
unchanged; any other value is replaced by the first 16 hex characters of
`HMAC-SHA256(secret_key, str(value))`. -/
def anonymize_value (value : Option String) (secret_key : String) : Option String :=
  if isBlankValue value then value
  else
    some (String.mk ((hexdigest (hmacSha256 (utf8Bytes secret_key) (utf8Bytes (value.getD "")))).take 16))

/-! ## Basic facts about the digest pipeline -/

/-- Packing a character list loses nothing: the length is the list's length. -/
theorem mk_length (l : List Char) : (String.mk l).length = l.length := rfl

/-- A SHA-256 digest is exactly 32 bytes. -/
theorem sha256_length (m : List Nat) : (sha256 m).length = 32 := rfl

/-- An HMAC-SHA256 digest is exactly 32 bytes. -/
theorem hmacSha256_length (key msg : List Nat) : (hmacSha256 key msg).length = 32 :=
  sha256_length _

/-- A hex digest has two characters per byte. -/
theorem hexdigest_length (bs : List Nat) : (hexdigest bs).length = 2 * bs.length := by
  induction bs with
  | nil => rfl
  | cons b t ih =>
    simp only [hexdigest, List.map_cons, List.flatten_cons, List.length_append, byteHex,
      List.length_cons, List.length_nil] at *
    omega

/-- Every output of `hexChar` is a hex digit. -/
theorem hexChar_mem (n : Nat) : hexChar n ∈ hexAlphabet := by
  have h1 : n % 16 < 16 := Nat.mod_lt _ (by norm_num)
  unfold hexChar
  generalize n % 16 = m at h1 ⊢
  interval_cases m <;> decide

/-- Every character of a hex digest is a hex digit. -/
theorem hexdigest_subset (bs : List Nat) : ∀ c ∈ hexdigest bs, c ∈ hexAlphabet := by
  induction bs with
  | nil => simp [hexdigest]
  | cons b t ih =>
    intro c hc
    simp only [hexdigest, List.map_cons, List.flatten_cons, List.mem_append] at hc
    rcases hc with hc | hc
    · simp only [byteHex, List.mem_cons, List.not_mem_nil, or_false] at hc
      rcases hc with rfl | rfl <;> exact hexChar_mem _
    · exact ih c hc

/-- Python's `strip` yields the empty string exactly on all-whitespace input. -/
theorem pyStrip_eq_empty_iff (s : String) :
    pyStrip s = "" ↔ ∀ c ∈ s.toList, pyIsSpace c = true := by
  constructor
  · intro h
    have hl : ((s.toList.dropWhile pyIsSpace).reverse.dropWhile pyIsSpace).reverse = [] := by
      simpa [pyStrip] using congrArg String.toList h
    rw [List.reverse_eq_nil_iff, List.dropWhile_eq_nil_iff] at hl
    intro c hcmem
    rw [← List.takeWhile_append_dropWhile pyIsSpace s.toList] at hcmem
    rcases List.mem_append.mp hcmem with h1 | h1
    · exact List.mem_takeWhile_imp h1
    · exact hl c (List.mem_reverse.mpr h1)
  · intro h
    have h1 : s.toList.dropWhile pyIsSpace = [] := List.dropWhile_eq_nil_iff.mpr h
    unfold pyStrip
    rw [h1]
    rfl

/-- C2: for every key, `anonymize_value` returns its input completely unchanged
whenever the input value is null/absent (`none`), the empty string, or consists
solely of whitespace characters. -/
theorem anonymize_value_blank_passthrough (v : Option String) (k : String)
    (h : v = none ∨ v = some "" ∨ ∃ s, v = some s ∧ ∀ c ∈ s.toList, pyIsSpace c = true) :
    anonymize_value v k = v := by
  have hb : isBlankValue v = true := by
    rcases h with rfl | rfl | ⟨s, rfl, hs⟩
    · rfl
    · simp [isBlankValue]
    · simp [isBlankValue, (pyStrip_eq_empty_iff s).mpr hs]
  simp [anonymize_value, hb]

/-- C2 witness: a whitespace-only cell passes through unchanged. -/
theorem anonymize_value_blank_passthrough_witness :
    anonymize_value (some " \t ") "secret_key" = some " \t " :=
  anonymize_value_blank_passthrough _ _ (Or.inr (Or.inr ⟨" \t ", rfl, by decide⟩))

/-- C1: for every value that is not null, not empty and not whitespace-only,
and every key, `anonymize_value` returns exactly the first 16 hex characters of
the HMAC-SHA256 digest of the value under the key; the output (a pure function
of the `(value, key)` pair) has length exactly 16 and draws only from the hex
alphabet. -/
theorem anonymize_value_hashes (s k : String)
    (h1 : s ≠ "") (h2 : ¬ ∀ c ∈ s.toList, pyIsSpace c = true) :
    anonymize_value (some s) k
      = some (String.mk ((hexdigest (hmacSha256 (utf8Bytes k) (utf8Bytes s))).take 16))
    ∧ ∀ out, anonymize_value (some s) k = some out →
        out.length = 16 ∧ ∀ c ∈ out.toList, c ∈ hexAlphabet := by
  have hb : isBlankValue (some s) = false := by
    simp only [isBlankValue, Bool.or_eq_false_iff, decide_eq_false_iff_not]
    refine ⟨h1, fun hps => h2 ((pyStrip_eq_empty_iff s).mp hps)⟩
  have he : anonymize_value (some s) k
      = some (String.mk ((hexdigest (hmacSha256 (utf8Bytes k) (utf8Bytes s))).take 16)) := by
    simp [anonymize_value, hb]
  refine ⟨he, ?_⟩
  intro out hout
  rw [he] at hout
  have hoe : out = String.mk ((hexdigest (hmacSha256 (utf8Bytes k) (utf8Bytes s))).take 16) :=
    (Option.some.inj hout).symm
  subst hoe
  have hlen : (hexdigest (hmacSha256 (utf8Bytes k) (utf8Bytes s))).length = 64 := by
    rw [hexdigest_length, hmacSha256_length]
  constructor
  · rw [mk_length, List.length_take, hlen]
    decide
  · intro c hc
    exact hexdigest_subset _ c (List.take_subset _ _ hc)

/-- C1 witness: a concrete non-blank cell is hashed to a 16-character hex string. -/
theorem anonymize_value_hashes_witness :
    anonymize_value (some "John") "k"
      = some (String.mk ((hexdigest (hmacSha256 (utf8Bytes "k") (utf8Bytes "John"))).take 16))
    ∧ ∀ out, anonymize_value (some "John") "k" = some out →
        out.length = 16 ∧ ∀ c ∈ out.toList, c ∈ hexAlphabet :=
  anonymize_value_hashes "John" "k" (by decide) (by decide)

/-! ## Delimiter detection (app.py lines 41–52)

`detect_delimiter` reads an 8 KiB decoded sample and asks `csv.Sniffer`
(standard-library code, not part of this repository) for the delimiter among
`,;\t|`, defaulting to comma when sniffing raises `csv.Error`. The sniffer
itself is modelled from the spec below. -/

/-- The delimiter candidates `,;\t|` passed to the sniffer. -/
def delimCandidates : List Char := [',', ';', '\t', '|']

/-- Remove double-quoted regions from a character stream: characters between
quotes (and the quotes themselves) are dropped, so delimiter-like characters
inside quoted field values are ignored. `inQ` says whether the scan is
currently inside a quoted region. -/
def stripQuoted : Bool → List Char → List Char
  | _, [] => []
  | inQ, c :: rest =>
    if c = '"' then stripQuoted (!inQ) rest
    else if inQ then stripQuoted inQ rest
    else c :: stripQuoted inQ rest

/-- Split a character list at a separator, keeping empty pieces
(the piece list is never empty). -/
def splitSep (sep : Char) : List Char → List (List Char)
  | [] => [[]]
  | c :: rest =>
    if c = sep then [] :: splitSep sep rest
    else
      match splitSep sep rest with
      | [] => [[c]]
      | p :: ps => (c :: p) :: ps

/-- The non-empty lines of a character stream. -/
def nonEmptyLines (l : List Char) : List (List Char) :=
  (splitSep '\n' l).filter (fun p => !p.isEmpty)

/-- Occurrences of a character in a line. -/
def countC (c : Char) (l : List Char) : Nat := (l.filter (fun x => x == c)).length

/-- A candidate delimiter is consistent when it occurs in the first sample line
and every line shows the same occurrence count (hence the same field count). -/
def candidateConsistent (lines : List (List Char)) (c : Char) : Bool :=
  match lines with
  | [] => false
  | l :: rest => decide (0 < countC c l) && rest.all (fun l2 => decide (countC c l2 = countC c l))

/-- Modelled from the spec: the quote-aware heuristic of Python's `csv.Sniffer`
(standard-library code, absent from `src/`): quoted field values are masked
out, the sample is cut into lines, and the first candidate in `,;\t|` whose
per-line occurrence count is positive and identical across lines is chosen;
`none` is a sniffing failure (`csv.Error`). -/
def sniff (sample : String) : Option Char :=
  delimCandidates.find? (candidateConsistent (nonEmptyLines (stripQuoted false sample.toList)))

/-- `detect_delimiter` from app.py, over the decoded sample: the sniffed
delimiter, or comma when sniffing fails. -/
def detect_delimiter (sample : String) : Char := (sniff sample).getD ','

/-- `splitSep` always produces at least one piece. -/
theorem splitSep_ne_nil (sep : Char) (l : List Char) : splitSep sep l ≠ [] := by
  match l with
  | [] => simp [splitSep]
  | c :: rest =>
    unfold splitSep
    split
    · simp
    · split <;> simp

/-- Every character of a piece of `splitSep` comes from the input list. -/
theorem splitSep_mem {sep : Char} {l : List Char} {p : List Char} {x : Char}
    (hp : p ∈ splitSep sep l) (hx : x ∈ p) : x ∈ l := by
  induction l generalizing p with
  | nil =>
    simp [splitSep] at hp
    subst hp
    simp at hx
  | cons c rest ih =>
    unfold splitSep at hp
    split at hp
    · rcases List.mem_cons.mp hp with rfl | hp
      · simp at hx
      · exact List.mem_cons_of_mem _ (ih hp hx)
    · split at hp
      next heq => exact absurd heq (splitSep_ne_nil sep rest)
      next q qs heq =>
        rcases List.mem_cons.mp hp with rfl | hp
        · rcases List.mem_cons.mp hx with rfl | hx
          · exact List.mem_cons_self _ _
          · exact List.mem_cons_of_mem _ (ih (heq ▸ List.mem_cons_self q qs) hx)
        · exact List.mem_cons_of_mem _ (ih (heq ▸ List.mem_cons_of_mem q hp) hx)

/-- A positive occurrence count means membership. -/
theorem countC_pos_mem {c : Char} {l : List Char} (h : 0 < countC c l) : c ∈ l := by
  induction l with
  | nil => simp [countC] at h
  | cons x xs ih =>
    by_cases hx : (x == c) = true
    · exact (eq_of_beq hx) ▸ List.mem_cons_self x xs
    · refine List.mem_cons_of_mem _ (ih ?_)
      simpa [countC, List.filter_cons, hx] using h

/-- A consistent candidate occurs in some sample line. -/
theorem candidateConsistent_exists {lines : List (List Char)} {c : Char}
    (h : candidateConsistent lines c = true) : ∃ l ∈ lines, c ∈ l := by
  match lines with
  | [] => simp [candidateConsistent] at h
  | l :: rest =>
    simp only [candidateConsistent, Bool.and_eq_true, decide_eq_true_eq] at h
    exact ⟨l, List.mem_cons_self _ _, countC_pos_mem h.1⟩

/-- A successfully sniffed delimiter occurs outside all quoted regions. -/
theorem sniff_mem_masked {sample : String} {c : Char} (h : sniff sample = some c) :
    c ∈ stripQuoted false sample.toList := by
  have hcons := List.find?_some h
  obtain ⟨l, hl, hcl⟩ := candidateConsistent_exists hcons
  have hl2 : l ∈ splitSep '\n' (stripQuoted false sample.toList) :=
    List.mem_of_mem_filter hl
  exact splitSep_mem hl2 hcl

/-- C8: for every input sample, `detect_delimiter` returns a member of
`{comma, semicolon, tab, pipe}`, and returns comma whenever the sniffer fails
to infer a delimiter; being a total function, it never raises to the caller.
(spec-modelled: the sniffer is Python standard-library code.) -/
theorem detect_delimiter_total (sample : String) :
    detect_delimiter sample ∈ delimCandidates
    ∧ (sniff sample = none → detect_delimiter sample = ',') := by
  constructor
  · rcases hs : sniff sample with _ | d
    · simp [detect_delimiter, hs, delimCandidates]
    · have : d ∈ delimCandidates := List.mem_of_find?_eq_some hs
      simpa [detect_delimiter, hs] using this
  · intro h
    simp [detect_delimiter, h]

/-- C8 witness: single-column data defeats the sniffer and comma is returned. -/
theorem detect_delimiter_total_witness :
    detect_delimiter "singlecolumn" ∈ delimCandidates
    ∧ detect_delimiter "singlecolumn" = ',' :=
  ⟨(detect_delimiter_total "singlecolumn").1,
   (detect_delimiter_total "singlecolumn").2 (by decide)⟩

/-- C7 counterexample: in the sample `"a,b"` newline `"c,d"`, the comma occurs
only inside quoted field values, yet `detect_delimiter` still chooses comma
(the sniffer finds no candidate outside quotes and the comma default kicks in),
so the claim's universal statement fails for the comma candidate. -/
theorem detect_delimiter_quoted_comma_cex :
    ',' ∈ ("\"a,b\"\n\"c,d\"" : String).toList
    ∧ ',' ∉ stripQuoted false ("\"a,b\"\n\"c,d\"" : String).toList
    ∧ detect_delimiter "\"a,b\"\n\"c,d\"" = ',' := by
  refine ⟨by decide, by decide, by decide⟩

/-- C7 (amended): a candidate other than comma that occurs only inside quoted
field values is never chosen as the delimiter (for comma itself the sniff-failure
default may still return comma); the claim's two concrete inferences hold:
`"x";"y"` / `"1";"2"` yields semicolon, and a file whose pipes appear only
inside quoted fields yields comma, not pipe.
(spec-modelled: the sniffer is Python standard-library code.) -/
theorem detect_delimiter_quote_aware (sample : String) (c : Char)
    (h1 : c ≠ ',') (h2 : c ∉ stripQuoted false sample.toList) :
    detect_delimiter sample ≠ c
    ∧ detect_delimiter "\"x\";\"y\"\n\"1\";\"2\"" = ';'
    ∧ detect_delimiter "\"name\",\"city\",\"note\"\n\"John\",\"SF\",\"||note||\"\n\"Jane\",\"LA\",\"||text||\"" = ',' := by
  refine ⟨?_, by decide, by decide⟩
  intro he
  rcases hs : sniff sample with _ | d
  · exact h1 (he ▸ by simp [detect_delimiter, hs])
  · have hd : d = c := by simpa [detect_delimiter, hs] using he
    exact h2 (hd ▸ sniff_mem_masked hs)

/-- C7 witness: a tab occurring only inside quotes is not chosen. -/
theorem detect_delimiter_quote_aware_witness :
    detect_delimiter "a,\"x\ty\"\nb,\"c\td\"" ≠ '\t'
    ∧ detect_delimiter "\"x\";\"y\"\n\"1\";\"2\"" = ';'
    ∧ detect_delimiter "\"name\",\"city\",\"note\"\n\"John\",\"SF\",\"||note||\"\n\"Jane\",\"LA\",\"||text||\"" = ',' :=
  detect_delimiter_quote_aware "a,\"x\ty\"\nb,\"c\td\"" '\t' (by decide) (by decide)

/-! ## Encoding detection (app.py lines 28–38)

`detect_encoding` feeds the first 10 KiB to `chardet.detect` (an external
statistical detector, abstracted here as the function parameter `det`) and
post-processes its answer exactly as app.py does: a missing/empty encoding
falls back to `"utf-8"`, anything else is returned as-is. -/

/-- The shape of a `chardet.detect` result: a possibly absent encoding name and
a confidence score (only its comparison with zero matters here). -/
structure ChardetResult where
  encoding : Option String
  confidence : Nat

/-- `detect_encoding` from app.py over an abstract chardet detector `det`:
`result.get('encoding', 'utf-8')`, the alias check for ascii/latin-1, and the
final `encoding or 'utf-8'` fallback. -/
def detect_encoding (det : List Nat → ChardetResult) (data : List Nat) : String :=
  match (det (data.take 10240)).encoding with
  | none => "utf-8"
  | some e =>
    if e ≠ "" ∧ (e.toLower = "ascii" ∨ e.toLower = "iso-8859-1" ∨ e.toLower = "latin-1") then e
    else if e = "" then "utf-8" else e

/-! ## The pandas parse and `/upload` (app.py lines 55–77 and 97–161)

`pd.read_csv` is external library code; `parsePandas` models it from the
spec's §4.1 description plus the behaviour app.py itself anticipates with its
`except pd.errors.EmptyDataError` handler: the byte stream is cut into
logical records at newlines *outside quotes* (standard CSV quoting: embedded
delimiters and newlines inside double quotes are literal data, `""` is an
escaped quote), blank records are skipped, the first remaining record is the
header, every record splits quote-aware at the detected delimiter, records
with a wrong field count are skipped (`on_bad_lines` tolerance / §4.1
"malformed rows are skipped with a warning"), and a file with no non-blank
record at all raises `EmptyDataError`. -/

/-- A parsed table: the header names and the data rows (`dtype=str`). -/
structure PFrame where
  header : List String
  rows : List (List String)
deriving DecidableEq

/-- Prepend a character to the first piece (starting one when there is none). -/
def consHead (c : Char) : List (List Char) → List (List Char)
  | [] => [[c]]
  | p :: ps => (c :: p) :: ps

/-- Cut a character stream into logical CSV records: a newline outside
double quotes ends a record; quote characters toggle the in-quotes state and
stay in the record (field parsing strips them later). -/
def splitRecords : Bool → List Char → List (List Char)
  | _, [] => [[]]
  | inQ, c :: rest =>
    if inQ = false ∧ c = '\n' then [] :: splitRecords false rest
    else consHead c (splitRecords (if c = '"' then !inQ else inQ) rest)

/-- The scanner state of the CSV field parser: outside quotes, inside quotes,
or just after a quote seen inside quotes (which the next character resolves
into either an escaped literal quote or a closed field). -/
inductive QuoteState where
  | outside
  | inside
  | closing

/-- Parse one record into its fields with standard CSV quoting: the delimiter
separates fields only outside quotes, a quote toggles the in-quotes state and
is stripped, and a doubled quote inside quotes is a literal quote. -/
def parseFields (delim : Char) : QuoteState → List Char → List (List Char)
  | _, [] => [[]]
  | .outside, c :: rest =>
    if c = delim then [] :: parseFields delim .outside rest
    else if c = '"' then parseFields delim .inside rest
    else consHead c (parseFields delim .outside rest)
  | .inside, c :: rest =>
    if c = '"' then parseFields delim .closing rest
    else consHead c (parseFields delim .inside rest)
  | .closing, c :: rest =>
    if c = '"' then consHead '"' (parseFields delim .inside rest)
    else if c = delim then [] :: parseFields delim .outside rest
    else consHead c (parseFields delim .outside rest)

/-- The non-blank logical records of a file. -/
def pyRecords (content : String) : List (List Char) :=
  (splitRecords false content.toList).filter (fun r => !r.isEmpty)

/-- The string fields of one record. -/
def recordFields (delim : Char) (r : List Char) : List String :=
  (parseFields delim .outside r).map (fun cs => String.mk cs)

/-- The data rows that survive the malformed-row skip: records whose field
count matches the header's. -/
def goodRows (delim : Char) (hline : List Char) (rest : List (List Char)) :
    List (List String) :=
  (rest.map (recordFields delim)).filter
    (fun r => decide (r.length = (recordFields delim hline).length))

/-- Column-name normalization of app.py line 75 / 199:
`col.lstrip('﻿').strip()`. -/
def normName (s : String) : String :=
  pyStrip (String.mk (s.toList.dropWhile (fun c => c = '﻿')))

/-- Modelled from the spec: `pd.read_csv` (pandas, absent from `src/`) —
skip blank records, take the first remaining record as the header, split
records quote-aware at the delimiter, skip rows with a wrong field count; no
non-blank record at all is `EmptyDataError`. -/
def parsePandas (delim : Char) (content : String) : Except Unit PFrame :=
  match pyRecords content with
  | [] => .error ()
  | hline :: rest => .ok ⟨recordFields delim hline, goodRows delim hline rest⟩

/-- `read_csv_robust` from app.py: detect the delimiter, parse with it, and
normalize the column names. -/
def read_csv_robust (content : String) : Except Unit (PFrame × Char) :=
  let d := detect_delimiter content
  match parsePandas d content with
  | .error e => .error e
  | .ok df => .ok (⟨df.header.map normName, df.rows⟩, d)

/-- Pandas `df.empty`: some axis has length zero. -/
def dfEmpty (f : PFrame) : Bool := f.rows.isEmpty || f.header.isEmpty

/-- The failure modes of `/upload` past the extension checks: the three
explicit validations plus the `except` branches ('CSV file is empty or
invalid' / generic processing error). -/
inductive UploadErr where
  | emptyInput
  | noDataRows
  | noColumns
  | parseFailure
deriving DecidableEq

/-- The `/upload` pipeline of app.py lines 110–161, with its file-storage
effect made explicit: `fs` is the set of stored file paths; the uploaded file
is saved first, the explicit validation branches `os.remove` it before
returning their error, and the `except` branches do not. -/
def uploadOp (fs : List String) (path : String) (content : String) :
    Except UploadErr PFrame × List String :=
  let fs1 := path :: fs
  if content = "" then (.error .emptyInput, fs1.erase path)
  else
    match read_csv_robust content with
    | .error _ => (.error .parseFailure, fs1)
    | .ok (df, _) =>
      if dfEmpty df then (.error .noDataRows, fs1.erase path)
      else if df.header.length = 0 then (.error .noColumns, fs1.erase path)
      else (.ok df, fs1)

/-! ## The DataFrame column transform (app.py lines 201–204) -/

/-- A DataFrame seen column-wise: named columns of nullable string cells. -/
structure DataTable where
  cols : List (String × List (Option String))

/-- One loop iteration of app.py lines 202–204:
`if col in df.columns: df[col] = df[col].apply(lambda x: anonymize_value(x, secret_key))`. -/
def applyColumn (t : DataTable) (col : String) (key : String) : DataTable :=
  ⟨t.cols.map (fun p =>
    if p.1 = col then (p.1, p.2.map (fun v => anonymize_value v key)) else p)⟩

/-- The whole `for col in columns_to_anonymize` loop. -/
def anonymizeColumns (t : DataTable) (requested : List String) (key : String) : DataTable :=
  requested.foldl (fun acc c => applyColumn acc c key) t

/-- View a parsed frame column-wise; a row too short for a column index reads
as `none` (pandas NA). -/
def pframeToTable (f : PFrame) : DataTable :=
  ⟨f.header.enum.map (fun jn => (jn.2, f.rows.map (fun r => r.get? jn.1)))⟩

/-! ## `/anonymize` (app.py lines 164–233) -/

/-- The failure modes of `/anonymize`: the three explicit validations plus the
generic `except` branch ('Error during anonymization'). -/
inductive AnonErr where
  | unknownHandle
  | noColumnsSelected
  | emptyKey
  | processingError
deriving DecidableEq

/-- The guard chain of app.py lines 176–183: `not file_id or file_id not in
file_storage`, then `not columns_to_anonymize`, then `not secret_key`. -/
def anonymizeChecks (handles : List String) (fileId : Option String)
    (cols : List String) (key : String) : Option AnonErr :=
  if fileId.getD "" = "" ∨ fileId.getD "" ∉ handles then some .unknownHandle
  else if cols = [] then some .noColumnsSelected
  else if key = "" then some .emptyKey
  else none

/-- One `file_storage` registry entry. -/
structure FileRec where
  filepath : String
  original_filename : String
  encoding : String
  delimiter : Char
  anonymized_filename : Option String
deriving DecidableEq

/-- The `{base}-anonymized.csv` naming rule of app.py lines 207–213. -/
def anonName (original : String) : String :=
  (if original.toLower.endsWith ".csv"
   then String.mk (original.toList.take (original.toList.length - 4))
   else original) ++ "-anonymized.csv"

/-- The `/anonymize` pipeline with its registry effect made explicit: guard
failures and any re-parse failure return with the registry untouched; only the
success path (after the output file is written) mutates the handle's entry. -/
def anonymizeOp (registry : List (String × FileRec)) (fileId : Option String)
    (cols : List String) (key : String) (content : String) :
    Except AnonErr DataTable × List (String × FileRec) :=
  match anonymizeChecks (registry.map Prod.fst) fileId cols key with
  | some e => (.error e, registry)
  | none =>
    match read_csv_robust content with
    | .error _ => (.error .processingError, registry)
    | .ok (df, _) =>
      (.ok (anonymizeColumns (pframeToTable df) cols key),
       registry.map (fun p =>
         if p.1 = fileId.getD "" then
           (p.1, { p.2 with anonymized_filename := some (anonName p.2.original_filename) })
         else p))

/-! ## C9: encoding detection never fails -/

/-- C9: for every input byte sequence, `detect_encoding` always returns a
usable (non-empty) encoding token; when detection is inconclusive — the
detector reports no encoding, an empty name, or zero confidence (chardet
reports no encoding at zero confidence, hypothesis `hz`) — it returns UTF-8;
and it is deterministic: identical input bytes give the identical name. -/
theorem detect_encoding_total (det : List Nat → ChardetResult) (data : List Nat)
    (hz : ∀ b, (det b).confidence = 0 → (det b).encoding = none) :
    detect_encoding det data ≠ ""
    ∧ ((det (data.take 10240)).encoding = none → detect_encoding det data = "utf-8")
    ∧ ((det (data.take 10240)).encoding = some "" → detect_encoding det data = "utf-8")
    ∧ ((det (data.take 10240)).confidence = 0 → detect_encoding det data = "utf-8")
    ∧ ∀ data2, data = data2 → detect_encoding det data = detect_encoding det data2 := by
  refine ⟨?_, ?_, ?_, ?_, fun d2 h => by rw [h]⟩
  · unfold detect_encoding
    rcases (det (data.take 10240)).encoding with _ | e
    · decide
    · dsimp only
      split
      · next h1 => exact h1.1
      · split
        · decide
        · next h2 => exact h2
  · intro h
    simp [detect_encoding, h]
  · intro h
    simp [detect_encoding, h]
  · intro h
    simp [detect_encoding, hz _ h]

/-- C9 witness: an inconclusive zero-confidence detector yields UTF-8. -/
theorem detect_encoding_total_witness :
    detect_encoding (fun _ => ⟨none, 0⟩) [65, 66] = "utf-8" :=
  (detect_encoding_total (fun _ => ⟨none, 0⟩) [65, 66] (fun _ _ => rfl)).2.1 rfl

/-! ## C3: the column transform is a frame-preserving map -/

/-- The fold over requested column names acts pointwise: a requested name's
cells are mapped through `anonymize_value`, every other column is untouched
(duplicate-free request lists, which is what a requested column-name *set*
denotes — a duplicated name would be hashed twice by the source loop). -/
theorem anonymizeColumns_cols (t : DataTable) (req : List String) (key : String)
    (hnd : req.Nodup) :
    (anonymizeColumns t req key).cols
      = t.cols.map (fun p =>
          if p.1 ∈ req then (p.1, p.2.map (fun v => anonymize_value v key)) else p) := by
  induction req generalizing t with
  | nil => simp [anonymizeColumns]
  | cons c rest ih =>
    obtain ⟨hc, hr⟩ := List.nodup_cons.mp hnd
    have step : anonymizeColumns t (c :: rest) key
        = anonymizeColumns (applyColumn t c key) rest key := rfl
    rw [step, ih _ hr, applyColumn, List.map_map]
    refine List.map_congr_left fun p _ => ?_
    by_cases h1 : p.1 = c
    · simp [Function.comp, h1, hc, List.mem_cons]
    · simp only [Function.comp, h1, if_neg h1, List.mem_cons]
      by_cases h2 : p.1 ∈ rest <;> simp [h1, h2]

/-- C3: given a duplicate-free requested set, the anonymize transform replaces
every cell of each requested column that is present via `anonymize_value`,
leaves all other columns unchanged, silently ignores requested names not in
the table (it is total and touches nothing for them), and preserves the
column-name sequence and every column's cell count (hence row count and row
order) exactly. -/
theorem anonymizeColumns_frame (t : DataTable) (req : List String) (key : String)
    (hnd : req.Nodup) :
    (anonymizeColumns t req key).cols
      = t.cols.map (fun p =>
          if p.1 ∈ req then (p.1, p.2.map (fun v => anonymize_value v key)) else p)
    ∧ (anonymizeColumns t req key).cols.map Prod.fst = t.cols.map Prod.fst
    ∧ (anonymizeColumns t req key).cols.map (fun p => p.2.length)
        = t.cols.map (fun p => p.2.length) := by
  have h1 := anonymizeColumns_cols t req key hnd
  refine ⟨h1, ?_, ?_⟩
  · rw [h1, List.map_map]
    refine List.map_congr_left fun p _ => ?_
    by_cases hp : p.1 ∈ req <;> simp [Function.comp, hp]
  · rw [h1, List.map_map]
    refine List.map_congr_left fun p _ => ?_
    by_cases hp : p.1 ∈ req <;> simp [Function.comp, hp]

/-- C3 witness: a concrete two-column table with one requested column. -/
theorem anonymizeColumns_frame_witness :
    (anonymizeColumns ⟨[("name", [some "John", none]), ("age", [some "30", some "25"])]⟩
        ["name"] "k").cols
      = [("name", [some "John", none]), ("age", [some "30", some "25"])].map
          (fun p => if p.1 ∈ ["name"] then (p.1, p.2.map (fun v => anonymize_value v "k")) else p) :=
  (anonymizeColumns_frame ⟨[("name", [some "John", none]), ("age", [some "30", some "25"])]⟩
    ["name"] "k" (by decide)).1

/-! ## The `/upload` pipeline, case by case -/

/-- `consHead` always yields a piece. -/
theorem consHead_ne_nil (c : Char) (ps : List (List Char)) : consHead c ps ≠ [] := by
  cases ps <;> simp [consHead]

/-- Parsing a record yields at least one field. -/
theorem parseFields_ne_nil (delim : Char) (st : QuoteState) (l : List Char) :
    parseFields delim st l ≠ [] := by
  induction l generalizing st with
  | nil => cases st <;> simp [parseFields]
  | cons c rest ih =>
    cases st with
    | outside =>
      simp only [parseFields]
      split
      · simp
      · split
        · exact ih _
        · exact consHead_ne_nil _ _
    | inside =>
      simp only [parseFields]
      split
      · exact ih _
      · exact consHead_ne_nil _ _
    | closing =>
      simp only [parseFields]
      split
      · exact consHead_ne_nil _ _
      · split
        · simp
        · exact consHead_ne_nil _ _

/-- A record has at least one field. -/
theorem recordFields_ne_nil (delim : Char) (r : List Char) :
    recordFields delim r ≠ [] := fun h =>
  parseFields_ne_nil delim .outside r (List.map_eq_nil_iff.mp h)

/-- `uploadOp` falls into exactly one of four shapes: empty input (file
removed), no parseable record (file kept — the `except` branch), a header
record with no surviving data row (file removed), or success. -/
theorem uploadOp_characterize (fs : List String) (path content : String) :
    (content = "" ∧ uploadOp fs path content = (.error .emptyInput, (path :: fs).erase path))
    ∨ (content ≠ "" ∧ pyRecords content = []
        ∧ uploadOp fs path content = (.error .parseFailure, path :: fs))
    ∨ (∃ hline rest, content ≠ "" ∧ pyRecords content = hline :: rest
        ∧ goodRows (detect_delimiter content) hline rest = []
        ∧ uploadOp fs path content = (.error .noDataRows, (path :: fs).erase path))
    ∨ (∃ hline rest, content ≠ "" ∧ pyRecords content = hline :: rest
        ∧ goodRows (detect_delimiter content) hline rest ≠ []
        ∧ uploadOp fs path content
          = (.ok ⟨(recordFields (detect_delimiter content) hline).map normName,
                  goodRows (detect_delimiter content) hline rest⟩,
             path :: fs)) := by
  by_cases hc : content = ""
  · exact Or.inl ⟨hc, by simp [uploadOp, hc]⟩
  · cases hnr : pyRecords content with
    | nil =>
      refine Or.inr (Or.inl ⟨hc, rfl, ?_⟩)
      simp [uploadOp, hc, read_csv_robust, parsePandas, hnr]
    | cons hline rest =>
      have hro : read_csv_robust content
          = .ok (⟨(recordFields (detect_delimiter content) hline).map normName,
                  goodRows (detect_delimiter content) hline rest⟩,
                 detect_delimiter content) := by
        simp [read_csv_robust, parsePandas, hnr]
      have hsf : recordFields (detect_delimiter content) hline ≠ [] :=
        recordFields_ne_nil _ hline
      by_cases hgr : goodRows (detect_delimiter content) hline rest = []
      · refine Or.inr (Or.inr (Or.inl ⟨hline, rest, hc, rfl, hgr, ?_⟩))
        simp [uploadOp, hc, hro, dfEmpty, hgr]
      · refine Or.inr (Or.inr (Or.inr ⟨hline, rest, hc, rfl, hgr, ?_⟩))
        simp [uploadOp, hc, hro, dfEmpty, hgr, hsf]

/-- C5 counterexample: a file consisting of one newline has non-zero length
and an empty header row after parsing, yet ingestion reports the re-parse
failure ('CSV file is empty or invalid'), not `NoColumns`. -/
theorem upload_noColumns_cex :
    ("\n" : String) ≠ ""
    ∧ pyRecords "\n" = []
    ∧ (uploadOp [] "p" "\n").1 = .error .parseFailure
    ∧ UploadErr.parseFailure ≠ UploadErr.noColumns :=
  ⟨by decide, by decide, rfl, by decide⟩

/-- C5 (amended): ingestion fails with `EmptyInput` exactly on zero-length
input; with `NoDataRows` exactly when a header record exists but no
well-formed data row survives (no further record, or all skipped for a wrong
field count); a non-empty file with no parseable record (only blank lines)
fails with the re-parse failure — never with `NoColumns`; whenever at least
one well-formed data row follows the header, ingestion succeeds.
(spec-modelled: the parse follows the spec's §4.1 pandas description, with
CSV quoting and malformed-row skipping.) -/
theorem upload_error_spec (fs : List String) (path content : String) :
    ((uploadOp fs path content).1 = .error .emptyInput ↔ content = "")
    ∧ ((uploadOp fs path content).1 = .error .parseFailure
        ↔ content ≠ "" ∧ pyRecords content = [])
    ∧ ((uploadOp fs path content).1 = .error .noDataRows
        ↔ content ≠ "" ∧ ∃ hline rest, pyRecords content = hline :: rest
            ∧ goodRows (detect_delimiter content) hline rest = [])
    ∧ (∀ hline rest, pyRecords content = hline :: rest →
        goodRows (detect_delimiter content) hline rest ≠ [] →
        ∃ df, (uploadOp fs path content).1 = .ok df) := by
  have hemp : pyRecords "" = [] := rfl
  rcases uploadOp_characterize fs path content with
    ⟨hc, he⟩ | ⟨hc, hnr, he⟩ | ⟨hline, rest, hc, hnr, hgr, he⟩ |
    ⟨hline, rest, hc, hnr, hgr, he⟩
  · subst hc
    refine ⟨?_, ?_, ?_, ?_⟩ <;> simp [he, hemp]
  · refine ⟨?_, ?_, ?_, ?_⟩ <;> simp [he, hc, hnr]
  · refine ⟨?_, ?_, ?_, ?_⟩ <;> simp [he, hc, hnr]
    · exact ⟨hline, rest, ⟨rfl, rfl⟩, hgr⟩
    · exact hgr
  · refine ⟨?_, ?_, ?_, ?_⟩ <;> simp [he, hc, hnr, hgr]

/-- C5 witness: a header record plus one well-formed data record ingests
successfully. -/
theorem upload_error_spec_witness :
    ∃ df, (uploadOp [] "p" "a,b\n1,2").1 = .ok df :=
  (upload_error_spec [] "p" "a,b\n1,2").2.2.2
    ['a', ',', 'b'] [['1', ',', '2']] (by decide) (by decide)

/-- Recognizer for the `NoColumns` ingestion outcome. -/
def isNoColumnsErr : Except UploadErr PFrame → Bool
  | .error .noColumns => true
  | _ => false

/-- Recognizer for parses whose table has at least one column (failures count
as vacuously fine). -/
def headerNonempty : Except Unit PFrame → Bool
  | .error _ => true
  | .ok df => !df.header.isEmpty

/-- C10: the `NoColumns` branch is unreachable: every successfully parsed
table has at least one column (the header record parses into at least one
field), and `uploadOp` never reports the 'CSV file has no columns' error on
any input. -/
theorem upload_noColumns_unreachable (fs : List String) (path content : String) :
    isNoColumnsErr (uploadOp fs path content).1 = false
    ∧ ∀ d, headerNonempty (parsePandas d content) = true := by
  constructor
  · rcases uploadOp_characterize fs path content with
      ⟨hc, he⟩ | ⟨hc, hnr, he⟩ | ⟨hline, rest, hc, hnr, hgr, he⟩ |
      ⟨hline, rest, hc, hnr, hgr, he⟩ <;>
      simp [he, isNoColumnsErr]
  · intro d
    cases hnr : pyRecords content with
    | nil => simp [parsePandas, hnr, headerNonempty]
    | cons hline rest =>
      simp [parsePandas, hnr, headerNonempty, recordFields_ne_nil d hline]

/-! ## C6: no partial mutation of shared state on failure -/

/-- C6 counterexample: the upload of a file consisting of one newline fails
(through the `except pd.errors.EmptyDataError` branch), yet the saved file
`p` is still in storage afterwards — the claimed removal-on-every-failure does
not hold. -/
theorem upload_cleanup_gap_cex :
    (uploadOp [] "p" "\n").1 = .error .parseFailure
    ∧ "p" ∈ (uploadOp [] "p" "\n").2 :=
  ⟨rfl, by decide⟩

/-- C6 (amended): a failing ingestion removes the already-saved file when it
fails through the three explicit validation branches (empty input, no data
rows, no columns), but leaves the file in storage when it fails through the
re-parse `except` branch; a failing anonymization always leaves the registry
exactly as it was. -/
theorem state_on_failure (fs : List String) (path content : String)
    (registry : List (String × FileRec)) (fileId : Option String)
    (cols : List String) (key : String) (content2 : String) :
    ((uploadOp fs path content).1 = .error .emptyInput
        ∨ (uploadOp fs path content).1 = .error .noDataRows
        ∨ (uploadOp fs path content).1 = .error .noColumns →
      (uploadOp fs path content).2 = fs)
    ∧ ((uploadOp fs path content).1 = .error .parseFailure →
      (uploadOp fs path content).2 = path :: fs)
    ∧ (∀ e, (anonymizeOp registry fileId cols key content2).1 = .error e →
      (anonymizeOp registry fileId cols key content2).2 = registry) := by
  refine ⟨?_, ?_, ?_⟩
  · intro hfail
    rcases uploadOp_characterize fs path content with
      ⟨hc, he⟩ | ⟨hc, hnr, he⟩ | ⟨hline, rest, hc, hnr, hgr, he⟩ |
      ⟨hline, rest, hc, hnr, hgr, he⟩
    · rw [he]
      exact List.erase_cons_head path fs
    · rw [he] at hfail
      simp at hfail
    · rw [he]
      exact List.erase_cons_head path fs
    · rw [he] at hfail
      simp at hfail
  · intro hfail
    rcases uploadOp_characterize fs path content with
      ⟨hc, he⟩ | ⟨hc, hnr, he⟩ | ⟨hline, rest, hc, hnr, hgr, he⟩ |
      ⟨hline, rest, hc, hnr, hgr, he⟩
    · rw [he] at hfail
      simp at hfail
    · rw [he]
    · rw [he] at hfail
      simp at hfail
    · rw [he] at hfail
      simp at hfail
  · intro e hf
    cases hchk : anonymizeChecks (registry.map Prod.fst) fileId cols key with
    | some e2 => simp [anonymizeOp, hchk]
    | none =>
      cases hro : read_csv_robust content2 with
      | error e3 => simp [anonymizeOp, hchk, hro]
      | ok pr =>
        cases pr with
        | mk df d =>
          simp [anonymizeOp, hchk, hro] at hf

/-- C6 witness: an empty-input upload failure leaves storage as it was. -/
theorem state_on_failure_witness :
    (uploadOp ["q"] "p" "").2 = ["q"] :=
  (state_on_failure ["q"] "p" "" [] none [] "" "").1 (Or.inl rfl)

/-! ## C4: the `/anonymize` guard chain -/

/-- A failed guard chain short-circuits `anonymizeOp` into that error. -/
theorem anonymizeOp_checks_some {registry : List (String × FileRec)}
    {fileId : Option String} {cols : List String} {key : String}
    (content : String) {e : AnonErr}
    (h : anonymizeChecks (registry.map Prod.fst) fileId cols key = some e) :
    (anonymizeOp registry fileId cols key content).1 = .error e := by
  simp [anonymizeOp, h]

/-- A passed guard chain leaves only the re-parse failure or success. -/
theorem anonymizeOp_checks_none {registry : List (String × FileRec)}
    {fileId : Option String} {cols : List String} {key : String}
    (content : String)
    (h : anonymizeChecks (registry.map Prod.fst) fileId cols key = none) :
    (anonymizeOp registry fileId cols key content).1 = .error .processingError
    ∨ ∃ t, (anonymizeOp registry fileId cols key content).1 = .ok t := by
  cases hro : read_csv_robust content with
  | error e3 =>
    left
    simp [anonymizeOp, h, hro]
  | ok pr =>
    right
    cases pr with
    | mk df d =>
      refine ⟨anonymizeColumns (pframeToTable df) cols key, ?_⟩
      simp [anonymizeOp, h, hro]

/-- C4: over registries whose keys are never the empty string (they are
`uuid4` values), the anonymize operation fails with `UnknownHandle` exactly
when the handle is not registered, with `NoColumnsSelected` exactly when the
handle is known and the requested column list is empty, with `EmptyKey`
exactly when the handle is known, columns were requested and the secret key is
empty; on valid inputs none of the three failures occurs. -/
theorem anonymize_guard_spec (registry : List (String × FileRec)) (fid : String)
    (cols : List String) (key : String) (content : String)
    (hkeys : "" ∉ registry.map Prod.fst) :
    ((anonymizeOp registry (some fid) cols key content).1 = .error .unknownHandle
        ↔ fid ∉ registry.map Prod.fst)
    ∧ ((anonymizeOp registry (some fid) cols key content).1 = .error .noColumnsSelected
        ↔ fid ∈ registry.map Prod.fst ∧ cols = [])
    ∧ ((anonymizeOp registry (some fid) cols key content).1 = .error .emptyKey
        ↔ fid ∈ registry.map Prod.fst ∧ cols ≠ [] ∧ key = "")
    ∧ (fid ∈ registry.map Prod.fst → cols ≠ [] → key ≠ "" →
        (anonymizeOp registry (some fid) cols key content).1 ≠ .error .unknownHandle
        ∧ (anonymizeOp registry (some fid) cols key content).1 ≠ .error .noColumnsSelected
        ∧ (anonymizeOp registry (some fid) cols key content).1 ≠ .error .emptyKey) := by
  by_cases hm : fid ∈ registry.map Prod.fst
  · have hne : fid ≠ "" := fun h => hkeys (h ▸ hm)
    by_cases hcol : cols = []
    · subst hcol
      have hchk : anonymizeChecks (registry.map Prod.fst) (some fid) [] key
          = some .noColumnsSelected := by
        simp [anonymizeChecks, hne, hm]
      have h1 := anonymizeOp_checks_some content hchk
      refine ⟨?_, ?_, ?_, ?_⟩ <;> simp [h1, hm]
    · by_cases hk : key = ""
      · subst hk
        have hchk : anonymizeChecks (registry.map Prod.fst) (some fid) cols ""
            = some .emptyKey := by
          simp [anonymizeChecks, hne, hm, hcol]
        have h1 := anonymizeOp_checks_some content hchk
        refine ⟨?_, ?_, ?_, ?_⟩ <;> simp [h1, hm, hcol]
      · have hchk : anonymizeChecks (registry.map Prod.fst) (some fid) cols key
            = none := by
          simp [anonymizeChecks, hne, hm, hcol, hk]
        rcases anonymizeOp_checks_none content hchk with h1 | ⟨t, h1⟩ <;>
          refine ⟨?_, ?_, ?_, ?_⟩ <;> simp [h1, hm, hcol, hk]
  · have hchk : anonymizeChecks (registry.map Prod.fst) (some fid) cols key
        = some .unknownHandle := by
      simp [anonymizeChecks, hm]
    have h1 := anonymizeOp_checks_some content hchk
    refine ⟨?_, ?_, ?_, ?_⟩ <;> simp [h1, hm]

/-- A concrete registry entry for the C4 witness. -/
def sampleRec : FileRec := ⟨"/tmp/u/f.csv", "f.csv", "utf-8", ',', none⟩

/-- C4 witness: a registered handle does not raise `UnknownHandle`. -/
theorem anonymize_guard_spec_witness :
    (anonymizeOp [("id1", sampleRec)] (some "id1") ["name"] "k" "a,b\n1,2").1
        = .error .unknownHandle
      ↔ "id1" ∉ [("id1", sampleRec)].map Prod.fst :=
  (anonymize_guard_spec [("id1", sampleRec)] "id1" ["name"] "k" "a,b\n1,2" (by decide)).1

end CsvAnon
